import Mathlib

set_option maxHeartbeats 1000000

namespace CompactTables

/-!
Shallow embedding of `compact_tables.py`, the compact-tables extension for
Python-Markdown.  A parsed table is modelled as an attribute dictionary
(an association list with dict update semantics), the list of caption
children inserted at index 0, an untouched header section and an optional
tbody holding the body rows.  A cell models an ElementTree `td` text slot:
`none` is Python `None`, `some s` a string.  Fallible paths (the `assert`
in `Compactor.run`, list indexing errors) are modelled with `Except`.
-/

abbrev Cell := Option String
abbrev Row := List Cell

structure Table where
  attrs : List (String × String)
  captions : List String
  header : List Row
  tbody : Option (List Row)
deriving DecidableEq

/-- Python truthiness of an optional string: `None` and `""` are falsy. -/
def pyTruthy : Cell → Bool
  | none => false
  | some s => if s = "" then false else true

/-- Python `str.strip()` default whitespace characters (the ASCII ones;
lines arise from splitting on newlines, so this is the relevant set). -/
def pyIsSpace (c : Char) : Bool :=
  c = ' ' || c = '\t' || c = '\n' || c = '\r' || c = '\x0b' || c = '\x0c'

def stripChars (cs : List Char) : List Char :=
  ((cs.dropWhile pyIsSpace).reverse.dropWhile pyIsSpace).reverse

/-- Python `s.strip()`. -/
def pyStrip (s : String) : String := String.mk (stripChars s.toList)

/-- `orig_row.strip().endswith("|^")`: the continuation-row test of
`Compactor.run`. -/
def contMarked (line : String) : Bool :=
  match (stripChars line.toList).reverse with
  | '^' :: '|' :: _ => true
  | _ => false

/-- The optional caption segment of `TABLE_ATTR_RE`: the text after the
closing brace must be literally " caption: " followed by at least one
character (the greedy `.+` capture takes the whole remainder). -/
def captionTail : List Char → Option (List Char)
  | ' ' :: 'c' :: 'a' :: 'p' :: 't' :: 'i' :: 'o' :: 'n' :: ':' :: ' ' :: rest =>
    if rest.isEmpty then none else some rest
  | _ => none

/-- Model of `re.match(TABLE_ATTR_RE, s)` on the character list of `s`,
where `TABLE_ATTR_RE` is the pattern brace, `(.+)` greedy, closing brace,
then an optional " caption: " `(.+)` group.  `re.match` anchors at the
start of the string (no trimming), and nothing anchors the end.  The
greedy first group makes the closing brace the last one in the string,
and that brace must leave a non-empty group, i.e. sit at index at least 2.
Returns the attribute text and the optional caption text. -/
def tableAttrMatchL (cs : List Char) : Option (String × Option String) :=
  match cs with
  | '\x7b' :: rest =>
    match rest.reverse.dropWhile (fun c => !(c = '\x7d')) with
    | '\x7d' :: attrsRev =>
      if attrsRev.isEmpty then none
      else
        let tl := (rest.reverse.takeWhile (fun c => !(c = '\x7d'))).reverse
        some (String.mk attrsRev.reverse, (captionTail tl).map String.mk)
    | _ => none
  | _ => none

def tableAttrMatch (s : String) : Option (String × Option String) :=
  tableAttrMatchL s.toList

/-- The cell-merge step of `Compactor.run`: skip an untruthy continuation
cell; replace an untruthy target text; otherwise concatenate with the
separator in between. -/
def mergeCell (sep : String) (prev cur : Cell) : Cell :=
  if pyTruthy cur = false then prev
  else if pyTruthy prev = false then cur
  else some (prev.getD "" ++ sep ++ cur.getD "")

/-- `for prev_td, cur_td in zip(prev_tr, tr)`: only the first
`min` cells of the target are touched; target cells beyond the
continuation row's length stay, continuation cells beyond the target's
length are dropped with the removed row. -/
def mergeRow (sep : String) (prev cur : Row) : Row :=
  (prev.zip cur).map (fun pc => mergeCell sep pc.1 pc.2) ++ prev.drop cur.length

/-- The scan of `Compactor.run` over the remaining (source line, tr)
pairs: `cur` is `prev_tr` (the current merge target), `done` holds, in
reverse, the rows already retained.  A marked line merges its row into
`cur`; an unmarked line retains `cur` and becomes the new target. -/
def joinLoop (sep : String) : List (String × Row) → Row → List Row → List Row
  | [], cur, done => (cur :: done).reverse
  | (line, r) :: rest, cur, done =>
    if contMarked line then joinLoop sep rest (mergeRow sep cur r) done
    else joinLoop sep rest r (cur :: done)

/-- The whole zipped scan: the first pair initializes `prev_tr` without
inspecting its line (a marker on the very first row is never read). -/
def joinRows (sep : String) : List (String × Row) → List Row
  | [] => []
  | (_, r) :: rest => joinLoop sep rest r []

/-- Per-table body of `Compactor.run`: skip blocks of fewer than 4 source
lines and tables without a tbody, drop the two header lines, `assert`
that the remaining line count equals the body row count, then join. -/
def joinTable (sep : String) (rows0 : List String) (tbl : Table) :
    Except String Table :=
  if rows0.length < 4 then .ok tbl
  else
    match tbl.tbody with
    | none => .ok tbl
    | some body =>
      let rows := rows0.drop 2
      if rows.length = body.length then
        .ok { tbl with tbody := some (joinRows sep (rows.zip body)) }
      else
        .error "AssertionError"

/-- `elem.get(k)` on the attribute dictionary. -/
def attrsGet : List (String × String) → String → Option String
  | [], _ => none
  | (k0, v0) :: rest, k => if k0 = k then some v0 else attrsGet rest k

/-- `elem.set(k, v)`: dict assignment keeps the position of an existing
key and appends a missing one. -/
def attrsSet : List (String × String) → String → String → List (String × String)
  | [], k, v => [(k, v)]
  | (k0, v0) :: rest, k, v =>
    if k0 = k then (k, v) :: rest else (k0, v0) :: attrsSet rest k v

/-- Characters the `attr_list` extension's NAME_RE leaves alone: an XML
Name character minus the colon (the regex replaces every maximal run of
other characters with one underscore). -/
def nameAllowed (c : Char) : Bool :=
  let n := c.toNat
  (0x41 ≤ n && n ≤ 0x5a) || n = 0x5f || (0x61 ≤ n && n ≤ 0x7a) ||
  (0x30 ≤ n && n ≤ 0x39) || n = 0x2d || n = 0x2e || n = 0xb7 ||
  (0xc0 ≤ n && n ≤ 0xd6) || (0xd8 ≤ n && n ≤ 0xf6) || (0xf8 ≤ n && n ≤ 0x2ff) ||
  (0x300 ≤ n && n ≤ 0x36f) || (0x370 ≤ n && n ≤ 0x37d) || (0x37f ≤ n && n ≤ 0x1fff) ||
  (0x200c ≤ n && n ≤ 0x200d) || (0x203f ≤ n && n ≤ 0x2040) ||
  (0x2070 ≤ n && n ≤ 0x218f) || (0x2c00 ≤ n && n ≤ 0x2fef) ||
  (0x3001 ≤ n && n ≤ 0xd7ff) || (0xf900 ≤ n && n ≤ 0xfdcf) ||
  (0xfdf0 ≤ n && n ≤ 0xfffd)

/-- NAME_RE.sub on a character list: the flag records whether we are
inside a run of disallowed characters already replaced by one
underscore. -/
def sanitizeAux : Bool → List Char → List Char
  | _, [] => []
  | inRun, c :: rest =>
    if nameAllowed c then c :: sanitizeAux false rest
    else if inRun then sanitizeAux true rest
    else '_' :: sanitizeAux true rest

/-- `Compactor.sanitize_name`. -/
def sanitize_name (name : String) : String :=
  String.mk (sanitizeAux false name.toList)

/-- `Compactor.assign_attrs`, taking the (key, value) pairs already
parsed by the external `attr_list.get_attrs` collaborator.  A "." key
appends to the class attribute (space-joined when a truthy class exists);
any other key is set directly under its sanitized name. -/
def assign_attrs (pairs : List (String × String))
    (attrs : List (String × String)) : List (String × String) :=
  pairs.foldl
    (fun acc kv =>
      if kv.1 = "." then
        match attrsGet acc "class" with
        | some cls =>
          if cls = "" then attrsSet acc "class" kv.2
          else attrsSet acc "class" (cls ++ " " ++ kv.2)
        | none => attrsSet acc "class" kv.2
      else attrsSet acc (sanitize_name kv.1) kv.2)
    attrs

/-- Per-table body of `Compactor.add_table_attributes`.  `ga` is the
external `attr_list.get_attrs` parser.  Blocks shorter than 4 lines and
tables without a tbody are skipped; otherwise the raw last source line is
matched (unanchored at the end, not trimmed).  On a match the last line
and the last body row are removed, attributes are assigned when the
captured text is truthy, and a captured caption is stripped and inserted
as the first child.  Removing the last row of an empty tbody is a Python
IndexError. -/
def attrTable (ga : String → List (String × String)) (rows : List String)
    (tbl : Table) : Except String (List String × Table) :=
  if rows.length < 4 then .ok (rows, tbl)
  else
    match tbl.tbody with
    | none => .ok (rows, tbl)
    | some body =>
      match tableAttrMatch (rows.getLast?.getD "") with
      | none => .ok (rows, tbl)
      | some (attrs, caption) =>
        if body.isEmpty then .error "IndexError"
        else
          .ok (rows.dropLast,
            { tbl with
              tbody := some body.dropLast
              attrs :=
                if attrs = "" then tbl.attrs
                else assign_attrs (ga attrs) tbl.attrs
              captions :=
                match caption with
                | some c => pyStrip c :: tbl.captions
                | none => tbl.captions })

/-- Both phases on one table, in the order `Compactor.run` performs them:
`add_table_attributes` first (it may pop the last source line and row),
then the join pass on the updated pair. -/
def processTable (ga : String → List (String × String)) (sep : String)
    (rows0 : List String) (tbl : Table) : Except String (List String × Table) :=
  match attrTable ga rows0 tbl with
  | .error e => .error e
  | .ok (rows1, tbl1) =>
    match joinTable sep rows1 tbl1 with
    | .error e => .error e
    | .ok tbl2 => .ok (rows1, tbl2)

/-- The attribute phase over all tables of a document, paired positionally
with `table_blocks` as `self.table_blocks[tbl_index]` does; a table with
no stored block is a Python IndexError.  Pops performed on a block are
visible afterwards because the list is mutated in place. -/
def addTableAttributesAll (ga : String → List (String × String)) :
    List (List String) → List Table →
      Except String (List (List String) × List Table)
  | bs, [] => .ok (bs, [])
  | [], _ :: _ => .error "IndexError"
  | b :: bs, t :: ts =>
    match attrTable ga b t with
    | .error e => .error e
    | .ok (b2, t2) =>
      match addTableAttributesAll ga bs ts with
      | .error e => .error e
      | .ok (bs2, ts2) => .ok (b2 :: bs2, t2 :: ts2)

/-- The join phase over all tables, positionally paired with the (already
attribute-processed) blocks. -/
def joinAll (sep : String) : List (List String) → List Table →
    Except String (List Table)
  | _, [] => .ok []
  | [], _ :: _ => .error "IndexError"
  | b :: bs, t :: ts =>
    match joinTable sep b t with
    | .error e => .error e
    | .ok t2 =>
      match joinAll sep bs ts with
      | .error e => .error e
      | .ok ts2 => .ok (t2 :: ts2)

structure Compactor where
  table_blocks : List (List String)
  sep : String
deriving DecidableEq

/-- `Compactor.__init__`: empty block list; the separator is the break
marker exactly when break insertion is enabled. -/
def Compactor.init (ins_brk : Bool) : Compactor :=
  { table_blocks := [], sep := if ins_brk then "<br/>" else " " }

/-- Python `block.split(newline)`: split on every newline, keeping empty
segments (an empty string yields one empty segment). -/
def splitNl : List Char → List (List Char)
  | [] => [[]]
  | c :: rest =>
    let r := splitNl rest
    if c = '\n' then [] :: r
    else
      match r with
      | [] => [[c]]
      | h :: t => (c :: h) :: t

def pySplitLines (s : String) : List String := (splitNl s.toList).map String.mk

/-- `Compactor.add_block`: append the split block to `table_blocks`.
Nothing ever clears the list. -/
def Compactor.add_block (c : Compactor) (block : String) : Compactor :=
  { c with table_blocks := c.table_blocks ++ [pySplitLines block] }

/-- `Compactor.run` at document level: attribute phase over every table,
then the join phase, with the popped blocks carried between them and kept
in the compactor state afterwards. -/
def Compactor.run (ga : String → List (String × String)) (c : Compactor)
    (tables : List Table) : Except String (List Table × Compactor) :=
  match addTableAttributesAll ga c.table_blocks tables with
  | .error e => .error e
  | .ok (blocks2, tables2) =>
    match joinAll c.sep blocks2 tables2 with
    | .error e => .error e
    | .ok tables3 => .ok (tables3, { c with table_blocks := blocks2 })

/-- One document render pass on a given compactor state: the block
processor feeds every detected table block to `add_block` during parsing,
then the tree processor's `run` fires once on the finished tree. -/
def renderPass (ga : String → List (String × String)) (c : Compactor)
    (blocks : List String) (tables : List Table) :
    Except String (List Table × Compactor) :=
  Compactor.run ga (blocks.foldl Compactor.add_block c) tables

structure CompactTableExtension where
  auto_insert_break : Bool
deriving DecidableEq

/-- The extension as constructed with no user configuration: the
`self.config` entry for `auto_insert_break` holds the value `False`. -/
def CompactTableExtension.defaultExt : CompactTableExtension :=
  { auto_insert_break := false }

/-- Modelled from the markdown library `Extension.getConfig`: the key is
present in `self.config`, so the stored value is returned and the
supplied fallback is ignored. -/
def CompactTableExtension.getConfigInsBrk (ext : CompactTableExtension)
    (_fallback : Bool) : Bool :=
  ext.auto_insert_break

/-- The `ins_brk` value `extendMarkdown` computes:
`self.getConfig("auto_insert_break", True)`. -/
def extendMarkdownInsBrk (ext : CompactTableExtension) : Bool :=
  ext.getConfigInsBrk true

/-- The compactor `extendMarkdown` registers. -/
def extendMarkdownCompactor (ext : CompactTableExtension) : Compactor :=
  Compactor.init (extendMarkdownInsBrk ext)

/-!  Spec-side definitions.  These follow the natural-language description
of the row join, to be compared with the embedding above. -/

/-- Modelled from the spec: a continuation cell with no text is skipped;
if the target cell has no text it takes the continuation cell's text
outright; otherwise the target cell's text becomes target text +
separator + continuation text. -/
def specMergeCell (sep : String) (target cont : Cell) : Cell :=
  match cont with
  | none => target
  | some c =>
    if c = "" then target
    else
      match target with
      | none => some c
      | some t => if t = "" then some c else some (t ++ sep ++ c)

/-- Modelled from the spec: merging is cell-by-cell, by position, zipped
only up to the shorter of the two cell sequences. -/
def specMergeRow (sep : String) (target cont : Row) : Row :=
  List.zipWith (specMergeCell sep) target cont ++ target.drop cont.length

/-- Modelled from the spec: each subsequent row whose trimmed source line
ends with the marker is merged into the current target; otherwise it is
kept and becomes the new current target. -/
def specScan (sep : String) : Row → List (String × Row) → List Row
  | target, [] => [target]
  | target, (line, row) :: rest =>
    if contMarked line then specScan sep (specMergeRow sep target row) rest
    else target :: specScan sep row rest

/-- Modelled from the spec: the first body row always becomes the initial
current target (its own marker is never consulted). -/
def specJoinBody (sep : String) : List (String × Row) → List Row
  | [] => []
  | (_, r) :: rest => specScan sep r rest

/-- `elem.get("class")` followed by the truthiness-guarded space join of
`assign_attrs`: append to a truthy class value, replace otherwise. -/
def classAppend : Option String → String → String
  | none, v => v
  | some c, v => if c = "" then v else c ++ " " ++ v

/-!  Helper lemmas. -/

theorem zip_map_eq_zipWith {α β γ : Type} (f : α → β → γ) :
    ∀ (l1 : List α) (l2 : List β),
      (l1.zip l2).map (fun p => f p.1 p.2) = List.zipWith f l1 l2
  | [], _ => by simp
  | _ :: _, [] => by simp
  | a :: l1, b :: l2 => by
    simp [List.zip_cons_cons, zip_map_eq_zipWith f l1 l2]

theorem mergeCell_eq_spec (sep : String) (p c : Cell) :
    mergeCell sep p c = specMergeCell sep p c := by
  cases c with
  | none => rfl
  | some cs =>
    cases p with
    | none =>
      by_cases h : cs = "" <;> simp [mergeCell, specMergeCell, pyTruthy, h]
    | some ps =>
      by_cases h : cs = "" <;> by_cases h2 : ps = "" <;>
        simp [mergeCell, specMergeCell, pyTruthy, h, h2]

theorem mergeRow_eq_spec (sep : String) (p c : Row) :
    mergeRow sep p c = specMergeRow sep p c := by
  unfold mergeRow specMergeRow
  rw [← zip_map_eq_zipWith]
  simp only [mergeCell_eq_spec]

theorem joinLoop_eq_specScan (sep : String) :
    ∀ (pairs : List (String × Row)) (cur : Row) (done : List Row),
      joinLoop sep pairs cur done = done.reverse ++ specScan sep cur pairs
  | [], cur, done => by simp [joinLoop, specScan]
  | (line, r) :: rest, cur, done => by
    by_cases h : contMarked line
    · simp only [joinLoop, specScan, h, if_true, mergeRow_eq_spec]
      exact joinLoop_eq_specScan sep rest (specMergeRow sep cur r) done
    · simp only [joinLoop, specScan, h, if_false,
        joinLoop_eq_specScan sep rest r (cur :: done), List.reverse_cons,
        List.append_assoc, List.singleton_append, Bool.false_eq_true]

theorem joinRows_eq_spec (sep : String) (pairs : List (String × Row)) :
    joinRows sep pairs = specJoinBody sep pairs := by
  cases pairs with
  | nil => rfl
  | cons p rest =>
    obtain ⟨line, r⟩ := p
    simp [joinRows, specJoinBody, joinLoop_eq_specScan]

theorem joinLoop_no_marks (sep : String) :
    ∀ (pairs : List (String × Row)) (cur : Row) (done : List Row),
      (∀ p ∈ pairs, contMarked p.1 = false) →
      joinLoop sep pairs cur done = done.reverse ++ cur :: pairs.map Prod.snd
  | [], cur, done, _ => by simp [joinLoop]
  | (line, r) :: rest, cur, done, h => by
    have hl : contMarked line = false := h (line, r) (List.mem_cons_self _ _)
    have ht : ∀ p ∈ rest, contMarked p.1 = false :=
      fun p hp => h p (List.mem_cons_of_mem _ hp)
    simp [joinLoop, hl, joinLoop_no_marks sep rest r (cur :: done) ht]

theorem joinRows_no_marks (sep : String) (pairs : List (String × Row))
    (h : ∀ p ∈ pairs, contMarked p.1 = false) :
    joinRows sep pairs = pairs.map Prod.snd := by
  cases pairs with
  | nil => rfl
  | cons p rest =>
    obtain ⟨line, r⟩ := p
    have ht : ∀ q ∈ rest, contMarked q.1 = false :=
      fun q hq => h q (List.mem_cons_of_mem _ hq)
    simp [joinRows, joinLoop_no_marks sep rest r [] ht]

theorem append_ne_empty_left (s t : String) (h : s ≠ "") : s ++ t ≠ "" := by
  intro hc
  apply h
  cases s with
  | mk d1 =>
    cases t with
    | mk d2 =>
      have h2 : d1 ++ d2 = ([] : List Char) := by
        have h3 := congrArg String.data hc
        simpa using h3
      have h4 : d1 = [] := (List.append_eq_nil.mp h2).1
      simp [h4]

theorem attrsGet_set (a : List (String × String)) (k v k2 : String) :
    attrsGet (attrsSet a k v) k2 = if k = k2 then some v else attrsGet a k2 := by
  induction a with
  | nil => simp [attrsSet, attrsGet]
  | cons p rest ih =>
    obtain ⟨k0, v0⟩ := p
    by_cases h0 : k0 = k
    · subst h0
      by_cases h2 : k0 = k2 <;> simp [attrsSet, attrsGet, h2]
    · by_cases h2 : k0 = k2
      · subst h2
        have hne : ¬ k = k0 := fun hk => h0 hk.symm
        simp [attrsSet, attrsGet, h0, hne]
      · simp [attrsSet, attrsGet, h0, h2, ih]

/-- One non-class step of `assign_attrs` unfolded. -/
theorem assign_attrs_cons_ne (k0 v0 : String) (rest : List (String × String))
    (a : List (String × String)) (h : k0 ≠ ".") :
    assign_attrs ((k0, v0) :: rest) a =
      assign_attrs rest (attrsSet a (sanitize_name k0) v0) := by
  simp [assign_attrs, h]

/-- One class-append step of `assign_attrs` unfolded. -/
theorem assign_attrs_cons_dot (v0 : String) (rest : List (String × String))
    (a : List (String × String)) :
    assign_attrs ((".", v0) :: rest) a =
      assign_attrs rest (attrsSet a "class" (classAppend (attrsGet a "class") v0)) := by
  simp only [assign_attrs, List.foldl_cons]
  cases hcl : attrsGet a "class" with
  | none => simp [classAppend, hcl]
  | some cls => by_cases h : cls = "" <;> simp [classAppend, hcl, h]

theorem assign_attrs_get_of_not_target (pairs : List (String × String))
    (a : List (String × String)) (k : String)
    (hdot : ∀ p ∈ pairs, p.1 ≠ ".")
    (hk : ∀ p ∈ pairs, sanitize_name p.1 ≠ k) :
    attrsGet (assign_attrs pairs a) k = attrsGet a k := by
  induction pairs generalizing a with
  | nil => rfl
  | cons p rest ih =>
    obtain ⟨k0, v0⟩ := p
    have h0 : k0 ≠ "." := hdot (k0, v0) (List.mem_cons_self _ _)
    have hk0 : sanitize_name k0 ≠ k := hk (k0, v0) (List.mem_cons_self _ _)
    rw [assign_attrs_cons_ne k0 v0 rest a h0]
    rw [ih (attrsSet a (sanitize_name k0) v0)
      (fun q hq => hdot q (List.mem_cons_of_mem _ hq))
      (fun q hq => hk q (List.mem_cons_of_mem _ hq))]
    rw [attrsGet_set]
    simp [hk0]

theorem assign_attrs_get_of_mem (pairs : List (String × String))
    (a : List (String × String)) (kk vv : String)
    (hdot : ∀ p ∈ pairs, p.1 ≠ ".")
    (hnd : (pairs.map (fun p => sanitize_name p.1)).Nodup)
    (hmem : (kk, vv) ∈ pairs) :
    attrsGet (assign_attrs pairs a) (sanitize_name kk) = some vv := by
  induction pairs generalizing a with
  | nil => cases hmem
  | cons p rest ih =>
    obtain ⟨k0, v0⟩ := p
    have h0 : k0 ≠ "." := hdot (k0, v0) (List.mem_cons_self _ _)
    rw [assign_attrs_cons_ne k0 v0 rest a h0]
    rw [List.map_cons, List.nodup_cons] at hnd
    rcases List.mem_cons.mp hmem with heq | hrest
    · have hk : kk = k0 := by
        have := congrArg Prod.fst heq
        simpa using this
      have hv : vv = v0 := by
        have := congrArg Prod.snd heq
        simpa using this
      subst hk
      subst hv
      rw [assign_attrs_get_of_not_target rest _ (sanitize_name kk)
        (fun q hq => hdot q (List.mem_cons_of_mem _ hq))
        (fun q hq hcol => hnd.1 (by
          rw [← hcol]
          exact List.mem_map.mpr ⟨q, hq, rfl⟩))]
      rw [attrsGet_set]
      simp
    · exact ih _ (fun q hq => hdot q (List.mem_cons_of_mem _ hq)) hnd.2 hrest

theorem assign_attrs_class_fold (vs : List String)
    (a : List (String × String)) :
    attrsGet (assign_attrs (vs.map (fun v => (".", v))) a) "class" =
      vs.foldl (fun o v => some (classAppend o v)) (attrsGet a "class") := by
  induction vs generalizing a with
  | nil => rfl
  | cons v rest ih =>
    rw [List.map_cons, assign_attrs_cons_dot, List.foldl_cons, ih]
    rw [attrsGet_set]
    simp

theorem assign_attrs_class_frame (vs : List String)
    (a : List (String × String)) (k : String) (hk : k ≠ "class") :
    attrsGet (assign_attrs (vs.map (fun v => (".", v))) a) k = attrsGet a k := by
  induction vs generalizing a with
  | nil => rfl
  | cons v rest ih =>
    rw [List.map_cons, assign_attrs_cons_dot, ih]
    rw [attrsGet_set]
    exact if_neg (fun hcl => hk hcl.symm)

/-!  Claim theorems. -/

/-- C1: on a table with at least 2 body rows whose source-line buffer
matches the body, the join phase produces exactly the spec's scan: each
row after the first whose trimmed source line ends in the marker is
merged cell-by-cell by position into the current target, zipped to the
shorter cell sequence, with empty continuation cells skipped, empty
target cells replaced outright, and non-empty targets joined with the
separator; unmarked rows are kept and become the new current target. -/
theorem c1_join_refines_spec (sep : String) (rows0 : List String)
    (tbl : Table) (body : List Row)
    (hb : tbl.tbody = some body)
    (hlen : (rows0.drop 2).length = body.length)
    (hn : 2 ≤ body.length) :
    joinTable sep rows0 tbl =
      .ok { tbl with tbody := some (specJoinBody sep ((rows0.drop 2).zip body)) } := by
  have h4 : ¬ rows0.length < 4 := by
    rw [List.length_drop] at hlen
    omega
  simp [joinTable, h4, hb, hlen, joinRows_eq_spec]

theorem c1_join_refines_spec_witness :
    joinTable " " ["|h|", "|-|", "|a|", "|b| |^"]
      { attrs := [], captions := [], header := [],
        tbody := some [[some "A"], [some "B"]] } =
      .ok { attrs := [], captions := [], header := [],
            tbody := some (specJoinBody " "
              (((["|h|", "|-|", "|a|", "|b| |^"] : List String).drop 2).zip
                [[some "A"], [some "B"]])) } :=
  c1_join_refines_spec " " ["|h|", "|-|", "|a|", "|b| |^"]
    { attrs := [], captions := [], header := [],
      tbody := some [[some "A"], [some "B"]] }
    [[some "A"], [some "B"]] rfl rfl (by decide)

/-- C2: joining is transitive onto the most recently retained row: any
run of consecutive marked rows folds, in order, into the same current
target; concretely three rows with the second and third marked become one
row a + sep + b + sep + c, a marked row following an unmarked row merges
onto that unmarked row (the most recently retained one) and not onto the
earlier target, and a marker on the very first body row is inert. -/
theorem c2_transitive_join (sep a b c d : String)
    (ha : a ≠ "") (hb : b ≠ "") (hc : c ≠ "") (hd : d ≠ "") :
    (∀ (pairs : List (String × Row)) (cur : Row) (done : List Row),
        (∀ p ∈ pairs, contMarked p.1 = true) →
        joinLoop sep pairs cur done =
          (pairs.foldl (fun r q => mergeRow sep r q.2) cur :: done).reverse)
    ∧ joinTable sep ["|h|", "|-|", "|r1|", "|r2| |^", "|r3| |^"]
        { attrs := [], captions := [], header := [],
          tbody := some [[some a], [some b], [some c]] } =
        .ok { attrs := [], captions := [], header := [],
              tbody := some [[some (a ++ sep ++ b ++ sep ++ c)]] }
    ∧ joinTable sep ["|h|", "|-|", "|r1|", "|r2| |^", "|r3|", "|r4| |^"]
        { attrs := [], captions := [], header := [],
          tbody := some [[some a], [some b], [some c], [some d]] }
        = .ok { attrs := [], captions := [], header := [],
                tbody := some [[some (a ++ sep ++ b)], [some (c ++ sep ++ d)]] }
    ∧ joinTable sep ["|h|", "|-|", "|r1| |^", "|r2|"]
        { attrs := [], captions := [], header := [],
          tbody := some [[some a], [some b]] } =
        .ok { attrs := [], captions := [], header := [],
              tbody := some [[some a], [some b]] } := by
  have hab : a ++ sep ++ b ≠ "" :=
    append_ne_empty_left (a ++ sep) b (append_ne_empty_left a sep ha)
  have habc : a ++ sep ++ b ++ sep ++ c ≠ "" :=
    append_ne_empty_left (a ++ sep ++ b ++ sep) c
      (append_ne_empty_left (a ++ sep ++ b) sep hab)
  have hcd : c ++ sep ++ d ≠ "" :=
    append_ne_empty_left (c ++ sep) d (append_ne_empty_left c sep hc)
  refine ⟨?_, ?_, ?_, ?_⟩
  · intro pairs
    induction pairs with
    | nil => intro cur done h; simp [joinLoop]
    | cons p rest ih =>
      intro cur done h
      obtain ⟨line, r⟩ := p
      have hm : contMarked line = true := h (line, r) (List.mem_cons_self _ _)
      rw [List.foldl_cons]
      rw [show joinLoop sep ((line, r) :: rest) cur done =
        joinLoop sep rest (mergeRow sep cur r) done by simp [joinLoop, hm]]
      exact ih (mergeRow sep cur r) done
        (fun q hq => h q (List.mem_cons_of_mem _ hq))
  · simp [joinTable, joinRows, joinLoop,
      show contMarked "|r2| |^" = true from rfl,
      show contMarked "|r3| |^" = true from rfl,
      mergeRow, mergeCell, pyTruthy, ha, hb, hc, hab]
  · simp [joinTable, joinRows, joinLoop,
      show contMarked "|r2| |^" = true from rfl,
      show contMarked "|r3|" = false from rfl,
      show contMarked "|r4| |^" = true from rfl,
      mergeRow, mergeCell, pyTruthy, ha, hb, hc, hd]
  · simp [joinTable, joinRows, joinLoop,
      show contMarked "|r2|" = false from rfl]

theorem c2_transitive_join_witness :
    ("A" : String) ≠ "" ∧
    joinTable "<br/>" ["|h|", "|-|", "|r1|", "|r2| |^", "|r3| |^"]
      { attrs := [], captions := [], header := [],
        tbody := some [[some "A"], [some "B"], [some "C"]] } =
      .ok { attrs := [], captions := [], header := [],
            tbody := some [[some ("A" ++ "<br/>" ++ "B" ++ "<br/>" ++ "C")]] } :=
  ⟨by decide,
   (c2_transitive_join "<br/>" "A" "B" "C" "D"
     (by decide) (by decide) (by decide) (by decide)).2.1⟩

/-- C7: a table with no continuation marker on any body source line and
whose last source line does not match the directive grammar passes
through both phases structurally unchanged. -/
theorem c7_no_marks_no_op (ga : String → List (String × String))
    (sep : String) (rows0 : List String) (tbl : Table) (body : List Row)
    (hb : tbl.tbody = some body)
    (hlen : rows0.length = body.length + 2)
    (hmk : ∀ l ∈ rows0.drop 2, contMarked l = false)
    (hdir : ∀ l, rows0.getLast? = some l → tableAttrMatch l = none) :
    processTable ga sep rows0 tbl = .ok (rows0, tbl) := by
  have hattr : attrTable ga rows0 tbl = .ok (rows0, tbl) := by
    by_cases h4 : rows0.length < 4
    · simp [attrTable, h4]
    · have hne : rows0 ≠ [] := by
        intro hnil
        rw [hnil] at h4
        exact h4 (by decide)
      obtain ⟨last, hlast⟩ :=
        Option.isSome_iff_exists.mp (List.getLast?_isSome.mpr hne)
      simp [attrTable, h4, hb, hlast, hdir last hlast]
  have hjoin : joinTable sep rows0 tbl = .ok tbl := by
    by_cases h4 : rows0.length < 4
    · simp [joinTable, h4]
    · have hdl : (rows0.drop 2).length = body.length := by
        rw [List.length_drop]
        omega
      have hmarks : ∀ p ∈ (rows0.drop 2).zip body, contMarked p.1 = false := by
        intro p hp
        exact hmk p.1 (List.of_mem_zip hp).1
      have hmap : ((rows0.drop 2).zip body).map Prod.snd = body :=
        List.map_snd_zip _ _ (le_of_eq hdl.symm)
      have hjr : joinRows sep ((rows0.drop 2).zip body) = body := by
        rw [joinRows_no_marks sep _ hmarks, hmap]
      have htb : ({ tbl with tbody := some body } : Table) = tbl := by
        cases tbl with
        | mk a2 c2 h2 t2 =>
          simp only at hb
          rw [← hb]
      simp [joinTable, h4, hb, hdl, hjr, htb]
  simp [processTable, hattr, hjoin]

theorem c7_no_marks_no_op_witness :
    processTable (fun _ => []) " " ["|h|", "|-|", "|a|", "|b|"]
      { attrs := [], captions := [], header := [],
        tbody := some [[some "A"], [some "B"]] } =
      .ok (["|h|", "|-|", "|a|", "|b|"],
        { attrs := [], captions := [], header := [],
          tbody := some [[some "A"], [some "B"]] }) :=
  c7_no_marks_no_op (fun _ => []) " " ["|h|", "|-|", "|a|", "|b|"]
    { attrs := [], captions := [], header := [],
      tbody := some [[some "A"], [some "B"]] }
    [[some "A"], [some "B"]] rfl rfl (by decide)
    (fun l hl => by
      have : l = "|b|" := by
        have h2 : (["|h|", "|-|", "|a|", "|b|"] : List String).getLast? = some "|b|" := rfl
        rw [h2] at hl
        exact (Option.some_inj.mp hl).symm
      rw [this]
      rfl)

/-- C8: a table with fewer than 2 body rows and a matching buffer, and a
table lacking a tbody altogether, are left untouched by both phases. -/
theorem c8_small_or_missing_body_no_op (ga : String → List (String × String))
    (sep : String) (rows0 : List String) (tbl : Table)
    (h : tbl.tbody = none ∨
      ∃ body, tbl.tbody = some body ∧ body.length < 2 ∧
        rows0.length = body.length + 2) :
    processTable ga sep rows0 tbl = .ok (rows0, tbl) := by
  rcases h with hnone | ⟨body, hsome, hlt, hlen⟩
  · by_cases h4 : rows0.length < 4 <;>
      simp [processTable, attrTable, joinTable, h4, hnone]
  · have h4 : rows0.length < 4 := by omega
    simp [processTable, attrTable, joinTable, h4]

/-- The directive regex is anchored at the start of the raw line: any
first character other than an opening brace defeats the match. -/
theorem tableAttrMatchL_cons_ne (c : Char) (cs : List Char)
    (hc : c ≠ '\x7b') : tableAttrMatchL (c :: cs) = none := by
  unfold tableAttrMatchL
  split
  · rename_i rest heq
    injection heq with h1 h2
    exact absurd h1 hc
  · rfl

/-- C3 counterexample: on a last source line of empty braces followed by
a caption segment, the attribute phase is a no-op — the row is kept, no
attribute is applied and no caption is inserted, because the regex
requires at least one character inside the braces. -/
theorem c3_empty_brace_counterexample :
    attrTable (fun _ => []) ["|h|", "|-|", "|a|", "\x7b\x7d caption: Pets"]
      { attrs := [], captions := [], header := [],
        tbody := some [[some "a"], [some "b"]] } =
      .ok (["|h|", "|-|", "|a|", "\x7b\x7d caption: Pets"],
        { attrs := [], captions := [], header := [],
          tbody := some [[some "a"], [some "b"]] }) := rfl

/-- C3 (amended): the brace segment must be non-empty for a line to be a
directive.  A last line of empty braces plus caption is ordinary content
and the attribute phase leaves the table alone; with a non-empty brace
segment and the same caption the row is removed, the attributes are
applied and the stripped caption is inserted as the first child. -/
theorem c3_nonempty_brace_required (ga : String → List (String × String))
    (rows0 rows1 : List String) (tbl0 tbl1 : Table)
    (body0 body1 : List Row)
    (hb0 : tbl0.tbody = some body0) (h40 : 4 ≤ rows0.length)
    (hlast0 : rows0.getLast? = some "\x7b\x7d caption: Pets")
    (hb1 : tbl1.tbody = some body1) (h41 : 4 ≤ rows1.length)
    (hne1 : body1 ≠ [])
    (hlast1 : rows1.getLast? = some "\x7b.x\x7d caption: Pets")
    (hga : ga ".x" = [(".", "x")]) :
    attrTable ga rows0 tbl0 = .ok (rows0, tbl0)
    ∧ attrTable ga rows1 tbl1 =
        .ok (rows1.dropLast,
          { tbl1 with
            tbody := some body1.dropLast
            attrs := assign_attrs [(".", "x")] tbl1.attrs
            captions := "Pets" :: tbl1.captions }) := by
  constructor
  · have h4 : ¬ rows0.length < 4 := by omega
    simp [attrTable, h4, hb0, hlast0,
      show tableAttrMatch "\x7b\x7d caption: Pets" = none from rfl]
  · have h4 : ¬ rows1.length < 4 := by omega
    have hbe : body1.isEmpty = false := by
      cases body1 with
      | nil => exact absurd rfl hne1
      | cons x xs => rfl
    simp [attrTable, h4, hb1, hlast1, hbe, hga,
      show tableAttrMatch "\x7b.x\x7d caption: Pets" = some (".x", some "Pets")
        from rfl,
      show pyStrip "Pets" = "Pets" from rfl]

theorem c3_nonempty_brace_required_witness :
    attrTable (fun s => if s = ".x" then [(".", "x")] else [])
        ["|h|", "|-|", "|a|", "\x7b\x7d caption: Pets"]
        { attrs := [], captions := [], header := [],
          tbody := some [[some "a"], [some "b"]] } =
      .ok (["|h|", "|-|", "|a|", "\x7b\x7d caption: Pets"],
        { attrs := [], captions := [], header := [],
          tbody := some [[some "a"], [some "b"]] })
    ∧ attrTable (fun s => if s = ".x" then [(".", "x")] else [])
        ["|h|", "|-|", "|a|", "\x7b.x\x7d caption: Pets"]
        { attrs := [], captions := [], header := [],
          tbody := some [[some "a"], [some "b"]] } =
      .ok ((["|h|", "|-|", "|a|", "\x7b.x\x7d caption: Pets"] : List String).dropLast,
        { attrs := assign_attrs [(".", "x")] [], captions := ["Pets"],
          header := [], tbody := some ([[some "a"], [some "b"]] : List Row).dropLast }) :=
  c3_nonempty_brace_required (fun s => if s = ".x" then [(".", "x")] else [])
    ["|h|", "|-|", "|a|", "\x7b\x7d caption: Pets"]
    ["|h|", "|-|", "|a|", "\x7b.x\x7d caption: Pets"]
    { attrs := [], captions := [], header := [],
      tbody := some [[some "a"], [some "b"]] }
    { attrs := [], captions := [], header := [],
      tbody := some [[some "a"], [some "b"]] }
    [[some "a"], [some "b"]] [[some "a"], [some "b"]]
    rfl (by decide) rfl rfl (by decide) (by decide) rfl rfl

/-- C4 counterexample: the break-insertion option does not default to
enabled.  The config entry stores False, `getConfig` returns the stored
value and ignores the True fallback, so the default separator is a
single space, not the break marker. -/
theorem c4_default_counterexample :
    extendMarkdownInsBrk CompactTableExtension.defaultExt = false
    ∧ (extendMarkdownCompactor CompactTableExtension.defaultExt).sep = " " :=
  ⟨rfl, rfl⟩

/-- C4 (amended): the break-insertion option defaults to disabled; when
enabled, merged cell text is joined with the break marker, and when
disabled with a single space, shown on a double join. -/
theorem c4_break_option_semantics :
    (extendMarkdownCompactor CompactTableExtension.defaultExt).sep = " "
    ∧ (Compactor.init true).sep = "<br/>"
    ∧ (Compactor.init false).sep = " "
    ∧ joinTable (Compactor.init true).sep
        ["|h|", "|-|", "|r1|", "|r2| |^", "|r3| |^"]
        { attrs := [], captions := [], header := [],
          tbody := some [[some "A"], [some "B"], [some "C"]] } =
        .ok { attrs := [], captions := [], header := [],
              tbody := some [[some "A<br/>B<br/>C"]] }
    ∧ joinTable (Compactor.init false).sep
        ["|h|", "|-|", "|r1|", "|r2| |^", "|r3| |^"]
        { attrs := [], captions := [], header := [],
          tbody := some [[some "A"], [some "B"], [some "C"]] } =
        .ok { attrs := [], captions := [], header := [],
              tbody := some [[some "A B C"]] } :=
  ⟨rfl, rfl, rfl, rfl, rfl⟩

/-- C5 counterexample: a misaligned table whose block has fewer than 4
source lines (here 3 lines against 2 body rows) is silently skipped by
both phases — no internal-consistency error is raised. -/
theorem c5_small_table_counterexample :
    processTable (fun _ => []) " " ["|h|", "|-|", "|a|"]
      { attrs := [], captions := [], header := [],
        tbody := some [[some "A"], [some "B"]] } =
      .ok (["|h|", "|-|", "|a|"],
        { attrs := [], captions := [], header := [],
          tbody := some [[some "A"], [some "B"]] }) := rfl

/-- C5 (amended): for a table with at least 4 source lines and a tbody, a
mismatch between the post-header line count and the body-row count makes
the join phase fail on the assert before performing any merge; blocks
with fewer than 4 lines are skipped without any check; and the attribute
phase, which runs first and checks nothing, can remove the last row and
assign attributes on misaligned data before the error surfaces. -/
theorem c5_mismatch_assert (ga : String → List (String × String))
    (sep : String) (rows0 : List String) (tbl : Table) (body : List Row)
    (hb : tbl.tbody = some body) (h4 : 4 ≤ rows0.length)
    (hm : (rows0.drop 2).length ≠ body.length)
    (hga : ga "style=x" = [("style", "x")]) :
    joinTable sep rows0 tbl = .error "AssertionError"
    ∧ (∀ (rows1 : List String) (tbl1 : Table), rows1.length < 4 →
        joinTable sep rows1 tbl1 = .ok tbl1)
    ∧ attrTable ga ["|h|", "|-|", "|a|", "|b|", "\x7bstyle=x\x7d"]
        { attrs := [], captions := [], header := [],
          tbody := some [[some "A"], [some "B"]] } =
        .ok (["|h|", "|-|", "|a|", "|b|"],
          { attrs := [("style", "x")], captions := [], header := [],
            tbody := some [[some "A"]] })
    ∧ processTable ga sep ["|h|", "|-|", "|a|", "|b|", "\x7bstyle=x\x7d"]
        { attrs := [], captions := [], header := [],
          tbody := some [[some "A"], [some "B"]] } =
        .error "AssertionError" := by
  have h4n : ¬ rows0.length < 4 := by omega
  have hattr : attrTable ga ["|h|", "|-|", "|a|", "|b|", "\x7bstyle=x\x7d"]
      { attrs := [], captions := [], header := [],
        tbody := some [[some "A"], [some "B"]] } =
      .ok (["|h|", "|-|", "|a|", "|b|"],
        { attrs := [("style", "x")], captions := [], header := [],
          tbody := some [[some "A"]] }) := by
    rw [show attrTable ga ["|h|", "|-|", "|a|", "|b|", "\x7bstyle=x\x7d"]
        { attrs := [], captions := [], header := [],
          tbody := some [[some "A"], [some "B"]] } =
      .ok (["|h|", "|-|", "|a|", "|b|"],
        { attrs := assign_attrs (ga "style=x") [], captions := [],
          header := [], tbody := some [[some "A"]] }) from rfl, hga]
    rfl
  refine ⟨?_, ?_, hattr, ?_⟩
  · have hm2 : ¬ rows0.length - 2 = body.length := by
      rw [List.length_drop] at hm
      exact hm
    simp [joinTable, h4n, hb, hm2]
  · intro rows1 tbl1 hlt
    simp [joinTable, hlt]
  · simp [processTable, hattr, joinTable]

theorem c5_mismatch_assert_witness :
    joinTable " " ["|h|", "|-|", "|a|", "|b|"]
      { attrs := [], captions := [], header := [],
        tbody := some [[some "A"], [some "B"], [some "C"]] } =
      .error "AssertionError"
    ∧ processTable (fun s => if s = "style=x" then [("style", "x")] else [])
        " " ["|h|", "|-|", "|a|", "|b|", "\x7bstyle=x\x7d"]
        { attrs := [], captions := [], header := [],
          tbody := some [[some "A"], [some "B"]] } =
        .error "AssertionError" :=
  ⟨(c5_mismatch_assert (fun s => if s = "style=x" then [("style", "x")] else [])
      " " ["|h|", "|-|", "|a|", "|b|"]
      { attrs := [], captions := [], header := [],
        tbody := some [[some "A"], [some "B"], [some "C"]] }
      [[some "A"], [some "B"], [some "C"]]
      rfl (by decide) (by decide) (by decide)).1,
   (c5_mismatch_assert (fun s => if s = "style=x" then [("style", "x")] else [])
      " " ["|h|", "|-|", "|a|", "|b|"]
      { attrs := [], captions := [], header := [],
        tbody := some [[some "A"], [some "B"], [some "C"]] }
      [[some "A"], [some "B"], [some "C"]]
      rfl (by decide) (by decide) (by decide)).2.2.2⟩

/-- C6 counterexample: a directive line with leading whitespace is not
recognized — the attribute phase leaves the table unchanged instead of
stripping the row, because the regex is matched against the raw line
anchored at its start. -/
theorem c6_leading_whitespace_counterexample :
    attrTable (fun _ => []) ["|h|", "|-|", "|a|", "  \x7b.x\x7d"]
      { attrs := [], captions := [], header := [],
        tbody := some [[some "a"], [some "b"]] } =
      .ok (["|h|", "|-|", "|a|", "  \x7b.x\x7d"],
        { attrs := [], captions := [], header := [],
          tbody := some [[some "a"], [some "b"]] }) := rfl

/-- C6 (amended): the grammar is applied to the raw, untrimmed last
source line and anchored only at its start: any leading character other
than an opening brace (leading whitespace in particular) defeats
recognition, while trailing whitespace after the brace segment is
tolerated because nothing anchors the end, and trailing whitespace
captured into a caption is trimmed from the caption text. -/
theorem c6_untrimmed_anchor (ga : String → List (String × String))
    (c : Char) (s : String) (hc : pyIsSpace c = true)
    (hga : ga ".y" = [(".", "y")]) :
    tableAttrMatchL (c :: s.toList) = none
    ∧ tableAttrMatch "\x7b.y\x7d   " = some (".y", none)
    ∧ attrTable ga ["|h|", "|-|", "|a|", " \x7b.y\x7d"]
        { attrs := [], captions := [], header := [],
          tbody := some [[some "A"], [some "B"]] } =
        .ok (["|h|", "|-|", "|a|", " \x7b.y\x7d"],
          { attrs := [], captions := [], header := [],
            tbody := some [[some "A"], [some "B"]] })
    ∧ attrTable ga ["|h|", "|-|", "|a|", "\x7b.y\x7d caption: Pets  "]
        { attrs := [], captions := [], header := [],
          tbody := some [[some "A"], [some "B"]] } =
        .ok (["|h|", "|-|", "|a|"],
          { attrs := assign_attrs [(".", "y")] [], captions := ["Pets"],
            header := [], tbody := some [[some "A"]] }) := by
  have hcb : c ≠ '\x7b' := by
    intro h
    rw [h] at hc
    exact absurd hc (by decide)
  refine ⟨tableAttrMatchL_cons_ne c s.toList hcb, rfl, rfl, ?_⟩
  simp [attrTable, hga,
    show tableAttrMatch "\x7b.y\x7d caption: Pets  " =
      some (".y", some "Pets  ") from rfl,
    show pyStrip "Pets  " = "Pets" from rfl]

theorem c6_untrimmed_anchor_witness :
    tableAttrMatchL (' ' :: ("\x7b.y\x7d" : String).toList) = none
    ∧ attrTable (fun s => if s = ".y" then [(".", "y")] else [])
        ["|h|", "|-|", "|a|", "\x7b.y\x7d caption: Pets  "]
        { attrs := [], captions := [], header := [],
          tbody := some [[some "A"], [some "B"]] } =
        .ok (["|h|", "|-|", "|a|"],
          { attrs := assign_attrs [(".", "y")] [], captions := ["Pets"],
            header := [], tbody := some [[some "A"]] }) :=
  ⟨(c6_untrimmed_anchor (fun s => if s = ".y" then [(".", "y")] else [])
      ' ' "\x7b.y\x7d" (by decide) (by decide)).1,
   (c6_untrimmed_anchor (fun s => if s = ".y" then [(".", "y")] else [])
      ' ' "\x7b.y\x7d" (by decide) (by decide)).2.2.2⟩

/-- C9 counterexample: attribute application is not order-independent for
all distinct non-dot keys: two distinct keys that sanitize to the same
name ("a:b" and "a;b" both become "a_b") leave different values depending
on encounter order. -/
theorem c9_sanitize_collision_counterexample :
    ([("a:b", "1"), ("a;b", "2")] : List (String × String)).Perm
        [("a;b", "2"), ("a:b", "1")]
    ∧ ("a:b" : String) ≠ "a;b"
    ∧ ("a:b" : String) ≠ "." ∧ ("a;b" : String) ≠ "."
    ∧ assign_attrs [("a:b", "1"), ("a;b", "2")] [] = [("a_b", "2")]
    ∧ assign_attrs [("a;b", "2"), ("a:b", "1")] [] = [("a_b", "1")]
    ∧ attrsGet (assign_attrs [("a:b", "1"), ("a;b", "2")] []) "a_b" ≠
        attrsGet (assign_attrs [("a;b", "2"), ("a:b", "1")] []) "a_b" := by
  decide

/-- C9 (amended): applying a parsed attribute sequence is
order-independent (as an attribute mapping) for non-dot pairs whose
sanitized names are pairwise distinct; every dot pair appends its value
to the class attribute in encounter order, space-joined onto a truthy
pre-existing class and created otherwise, and dot pairs touch no
attribute other than class. -/
theorem c9_attr_application (L1 L2 : List (String × String))
    (a : List (String × String)) (vs : List String)
    (hperm : L1.Perm L2)
    (hdot : ∀ p ∈ L1, p.1 ≠ ".")
    (hnd : (L1.map (fun p => sanitize_name p.1)).Nodup) :
    (∀ k, attrsGet (assign_attrs L1 a) k = attrsGet (assign_attrs L2 a) k)
    ∧ attrsGet (assign_attrs (vs.map (fun v => (".", v))) a) "class" =
        vs.foldl (fun o v => some (classAppend o v)) (attrsGet a "class")
    ∧ (∀ k, k ≠ "class" →
        attrsGet (assign_attrs (vs.map (fun v => (".", v))) a) k =
          attrsGet a k) := by
  refine ⟨?_, assign_attrs_class_fold vs a,
    fun k hk => assign_attrs_class_frame vs a k hk⟩
  intro k
  have hdot2 : ∀ p ∈ L2, p.1 ≠ "." := fun p hp => hdot p (hperm.symm.subset hp)
  have hnd2 : (L2.map (fun p => sanitize_name p.1)).Nodup :=
    (hperm.map _).nodup hnd
  by_cases hk : k ∈ L1.map (fun p => sanitize_name p.1)
  · obtain ⟨p, hp, hfp⟩ := List.mem_map.mp hk
    obtain ⟨kk, vv⟩ := p
    rw [← hfp]
    rw [assign_attrs_get_of_mem L1 a kk vv hdot hnd hp]
    rw [assign_attrs_get_of_mem L2 a kk vv hdot2 hnd2 (hperm.subset hp)]
  · have hk2 : ∀ p ∈ L1, sanitize_name p.1 ≠ k := by
      intro p hp hcol
      exact hk (List.mem_map.mpr ⟨p, hp, hcol⟩)
    have hk3 : ∀ p ∈ L2, sanitize_name p.1 ≠ k :=
      fun p hp => hk2 p (hperm.symm.subset hp)
    rw [assign_attrs_get_of_not_target L1 a k hdot hk2,
        assign_attrs_get_of_not_target L2 a k hdot2 hk3]

theorem c9_attr_application_witness :
    (∀ k, attrsGet (assign_attrs [("id", "t1"), ("style", "red")]
          [("class", "pre")]) k =
        attrsGet (assign_attrs [("style", "red"), ("id", "t1")]
          [("class", "pre")]) k)
    ∧ attrsGet (assign_attrs ((["x", "y"] : List String).map
          (fun v => (".", v))) [("class", "pre")]) "class" =
        (["x", "y"] : List String).foldl (fun o v => some (classAppend o v))
          (attrsGet [("class", "pre")] "class") :=
  ⟨(c9_attr_application [("id", "t1"), ("style", "red")]
      [("style", "red"), ("id", "t1")] [("class", "pre")] ["x", "y"]
      (by decide) (by decide) (by decide)).1,
   (c9_attr_application [("id", "t1"), ("style", "red")]
      [("style", "red"), ("id", "t1")] [("class", "pre")] ["x", "y"]
      (by decide) (by decide) (by decide)).2.1⟩

/-- C10: the per-table source-line buffers are NOT transient: nothing
clears `table_blocks` between passes, so a second render pass on the same
compactor pairs its first table with the first pass's stored block.  A
first pass on a 2-body-row table succeeds; a second pass on a
3-body-row table then fails the internal assert against the stale
4-line block, while the same pass on a fresh compactor succeeds. -/
theorem c10_blocks_persist_across_passes :
    renderPass (fun _ => []) (Compactor.init true) ["|h|\n|-|\n|a|\n|b|"]
      [{ attrs := [], captions := [], header := [],
         tbody := some [[some "a"], [some "b"]] }] =
      .ok ([{ attrs := [], captions := [], header := [],
              tbody := some [[some "a"], [some "b"]] }],
           { table_blocks := [["|h|", "|-|", "|a|", "|b|"]], sep := "<br/>" })
    ∧ renderPass (fun _ => [])
        { table_blocks := [["|h|", "|-|", "|a|", "|b|"]], sep := "<br/>" }
        ["|h|\n|-|\n|a|\n|b|\n|c|"]
        [{ attrs := [], captions := [], header := [],
           tbody := some [[some "a"], [some "b"], [some "c"]] }] =
        .error "AssertionError"
    ∧ renderPass (fun _ => []) (Compactor.init true)
        ["|h|\n|-|\n|a|\n|b|\n|c|"]
        [{ attrs := [], captions := [], header := [],
           tbody := some [[some "a"], [some "b"], [some "c"]] }] =
        .ok ([{ attrs := [], captions := [], header := [],
                tbody := some [[some "a"], [some "b"], [some "c"]] }],
             { table_blocks := [["|h|", "|-|", "|a|", "|b|", "|c|"]],
               sep := "<br/>" }) :=
  ⟨rfl, rfl, rfl⟩

theorem c8_small_or_missing_body_no_op_witness :
    processTable (fun _ => []) "<br/>" ["|h|", "|-|", "|a|"]
      { attrs := [], captions := [], header := [],
        tbody := some [[some "A"]] } =
      .ok (["|h|", "|-|", "|a|"],
        { attrs := [], captions := [], header := [],
          tbody := some [[some "A"]] }) :=
  c8_small_or_missing_body_no_op (fun _ => []) "<br/>" ["|h|", "|-|", "|a|"]
    { attrs := [], captions := [], header := [], tbody := some [[some "A"]] }
    (Or.inr ⟨[[some "A"]], rfl, by decide, rfl⟩)

end CompactTables
